import Mathlib

/-!
Shallow embedding of the 3D camera / clipping / turtle pipeline of
`src/lab1` (files `render-3d.ts`, `turtle-3d.ts`, `turtle-common.ts`,
`turtle-3d-main.ts`).  Real-number arithmetic of the source is modelled
over an arbitrary linear ordered field; the source's `Math.cos` and
`Math.sin` become explicit function parameters `mcos`, `msin`.
-/

namespace Graphics

variable {α : Type} [LinearOrderedField α]

/-- 2D vector, from `class Vec2D` in `render-3d.ts`. -/
structure Vec2D (α : Type) where
  x : α
  y : α
deriving DecidableEq

/-- Embeds `vec2` constructor from `render-3d.ts`. -/
def vec2 (x y : α) : Vec2D α := ⟨x, y⟩

/-- 3D vector, from `class Vec3D` in `render-3d.ts`. -/
structure Vec3D (α : Type) where
  x : α
  y : α
  z : α
deriving DecidableEq

/-- Embeds `vec3` constructor from `render-3d.ts`. -/
def vec3 (x y z : α) : Vec3D α := ⟨x, y, z⟩

/-- Componentwise addition (`Vec3D.add`). -/
def Vec3D.add (v w : Vec3D α) : Vec3D α := vec3 (v.x + w.x) (v.y + w.y) (v.z + w.z)

/-- Componentwise subtraction (`Vec3D.sub`). -/
def Vec3D.sub (v w : Vec3D α) : Vec3D α := vec3 (v.x - w.x) (v.y - w.y) (v.z - w.z)

/-- Componentwise multiplication (`Vec3D.mul`). -/
def Vec3D.mul (v w : Vec3D α) : Vec3D α := vec3 (v.x * w.x) (v.y * w.y) (v.z * w.z)

/-- Scalar multiplication (`Vec3D.mulScalar`). -/
def Vec3D.mulScalar (v : Vec3D α) (other : α) : Vec3D α :=
  vec3 (v.x * other) (v.y * other) (v.z * other)

/-- Embeds `Vec3D.zero`. -/
def Vec3D.zero : Vec3D α := vec3 0 0 0

/-- Euler rotation, from `class Rotation` in `render-3d.ts`.
Constructor argument order is `(roll, pitch, yaw)` as in the source. -/
structure Rotation (α : Type) where
  roll : α
  pitch : α
  yaw : α
deriving DecidableEq

/-- Accessor `get x` of `Rotation`: returns `pitch`. -/
def Rotation.x (r : Rotation α) : α := r.pitch

/-- Accessor `get y` of `Rotation`: returns `yaw`. -/
def Rotation.y (r : Rotation α) : α := r.yaw

/-- Accessor `get z` of `Rotation`: returns `roll`. -/
def Rotation.z (r : Rotation α) : α := r.roll

/-- The `rot` helper from `render-3d.ts`: takes `(pitch, yaw, roll)` and
builds `new Rotation(roll, pitch, yaw)`. -/
def rotMk (pitch yaw roll : α) : Rotation α := ⟨roll, pitch, yaw⟩

/-- Componentwise addition of rotations (`Rotation.add`), which adds the
`x`/`y`/`z` accessor views and rebuilds via `rot`. -/
def Rotation.add (r other : Rotation α) : Rotation α :=
  rotMk (Rotation.x r + Rotation.x other) (Rotation.y r + Rotation.y other)
    (Rotation.z r + Rotation.z other)

/-- Embeds `Rotation.zero`. -/
def Rotation.zero : Rotation α := ⟨0, 0, 0⟩

/-- Camera record from `render-3d.ts`. -/
structure Camera (α : Type) where
  position : Vec3D α
  rotation : Rotation α
  nearDistance : α
  farDistance : α
deriving DecidableEq

/-- Embeds `Camera.getRelativePoint` from `render-3d.ts`: translate by
`-position`, then apply the closed-form inverse-rotation expansion. -/
def Camera.getRelativePoint (mcos msin : α → α) (c : Camera α) (point : Vec3D α) : Vec3D α :=
  let x := point.x - c.position.x
  let y := point.y - c.position.y
  let z := point.z - c.position.z
  let cx := mcos (Rotation.x c.rotation)
  let cy := mcos (Rotation.y c.rotation)
  let cz := mcos (Rotation.z c.rotation)
  let sx := msin (Rotation.x c.rotation)
  let sy := msin (Rotation.y c.rotation)
  let sz := msin (Rotation.z c.rotation)
  let dx := cy * (sz * y + cz * x) - sy * z
  let tmp1 := cy * z + sy * (sz * y + cz * x)
  let tmp2 := cz * y - sz * x
  let dy := sx * tmp1 + cx * tmp2
  let dz := cx * tmp1 - sx * tmp2
  vec3 dx dy dz

/-- Embeds `Camera.projection` from `render-3d.ts`: perspective divide. -/
def Camera.projection (c : Camera α) (relativePoint : Vec3D α) : Vec2D α :=
  vec2 (c.nearDistance / relativePoint.z * relativePoint.x)
    (c.nearDistance / relativePoint.z * relativePoint.y)

/-- Embeds `Camera.normalizeViewVolumePoint` from `render-3d.ts`. -/
def Camera.normalizeViewVolumePoint (c : Camera α) (p : Vec3D α) : Vec3D α :=
  let xy := c.projection p
  let midpoint := (c.farDistance + c.nearDistance) / 2
  let distance := c.farDistance - c.nearDistance
  vec3 xy.x xy.y ((p.z - midpoint) / distance)

/-- Near-plane pre-clip stage of `Camera.normalizeViewVolume`
(`render-3d.ts` lines 94-105): the endpoint replacement performed
before the two endpoints are projected. -/
def Camera.nearClip (c : Camera α) (line : Vec3D α × Vec3D α) : Option (Vec3D α × Vec3D α) :=
  let p1 := line.1
  let p2 := line.2
  let tooNear1 := p1.z < c.nearDistance
  let tooNear2 := p2.z < c.nearDistance
  if tooNear1 ∧ tooNear2 then none
  else if tooNear1 ∨ tooNear2 then
    let alpha := (c.nearDistance - p1.z) / (p2.z - p1.z)
    let intersection :=
      vec3 (p1.x + alpha * (p2.x - p1.x)) (p1.y + alpha * (p2.y - p1.y)) c.nearDistance
    if tooNear1 then some (intersection, p2) else some (p1, intersection)
  else some (p1, p2)

/-- Embeds `Camera.normalizeViewVolume` from `render-3d.ts`: near-plane pre-clip,
then both endpoints go through `normalizeViewVolumePoint`. -/
def Camera.normalizeViewVolume (c : Camera α) (line : Vec3D α × Vec3D α) :
    Option (Vec3D α × Vec3D α) :=
  (c.nearClip line).map fun q =>
    (c.normalizeViewVolumePoint q.1, c.normalizeViewVolumePoint q.2)

/-- Out-code bit for `x > 1`. -/
def POSITIVE_X : Nat := 32
/-- Out-code bit for `x < -1`. -/
def NEGATIVE_X : Nat := 16
/-- Out-code bit for `y > 1`. -/
def POSITIVE_Y : Nat := 8
/-- Out-code bit for `y < -1`. -/
def NEGATIVE_Y : Nat := 4
/-- Out-code bit for `z > 1`. -/
def POSITIVE_Z : Nat := 2
/-- Out-code bit for `z < -1`. -/
def NEGATIVE_Z : Nat := 1

/-- Embeds `getOutCode` inside `clipLine` (`render-3d.ts` lines 128-137): the
source or-reduces the per-plane codes in the fixed order
`{+x,-x,+y,-y,+z,-z}`; with the six distinct bits this equals the
following or of conditional bits. -/
def getOutCode (p : Vec3D α) : Nat :=
  (if p.x > 1 then POSITIVE_X else 0) |||
  (if p.x < -1 then NEGATIVE_X else 0) |||
  (if p.y > 1 then POSITIVE_Y else 0) |||
  (if p.y < -1 then NEGATIVE_Y else 0) |||
  (if p.z > 1 then POSITIVE_Z else 0) |||
  (if p.z < -1 then NEGATIVE_Z else 0)

/-- One intersection computation of `clipLine` (`render-3d.ts` lines
150-176): picks the lowest-order violated plane of `outcode` in the
fixed check order and interpolates from `p1` to `p2`.  The final branch
is the source's unreachable `bruh moment` fallthrough, where
`intersection` stays `undefined`; it is modelled by an arbitrary value
(`p1`) and is never hit because the caller passes a nonzero outcode. -/
def clipStep (p1 p2 : Vec3D α) (outcode : Nat) : Vec3D α :=
  if outcode &&& POSITIVE_X ≠ 0 then
    let alpha := (1 - p1.x) / (p2.x - p1.x)
    vec3 1 (p1.y + alpha * (p2.y - p1.y)) (p1.z + alpha * (p2.z - p1.z))
  else if outcode &&& NEGATIVE_X ≠ 0 then
    let alpha := (-1 - p1.x) / (p2.x - p1.x)
    vec3 (-1) (p1.y + alpha * (p2.y - p1.y)) (p1.z + alpha * (p2.z - p1.z))
  else if outcode &&& POSITIVE_Y ≠ 0 then
    let alpha := (1 - p1.y) / (p2.y - p1.y)
    vec3 (p1.x + alpha * (p2.x - p1.x)) 1 (p1.z + alpha * (p2.z - p1.z))
  else if outcode &&& NEGATIVE_Y ≠ 0 then
    let alpha := (-1 - p1.y) / (p2.y - p1.y)
    vec3 (p1.x + alpha * (p2.x - p1.x)) (-1) (p1.z + alpha * (p2.z - p1.z))
  else if outcode &&& POSITIVE_Z ≠ 0 then
    let alpha := (1 - p1.z) / (p2.z - p1.z)
    vec3 (p1.x + alpha * (p2.x - p1.x)) (p1.y + alpha * (p2.y - p1.y)) 1
  else if outcode &&& NEGATIVE_Z ≠ 0 then
    let alpha := (-1 - p1.z) / (p2.z - p1.z)
    vec3 (p1.x + alpha * (p2.x - p1.x)) (p1.y + alpha * (p2.y - p1.y)) (-1)
  else p1

/-- The refinement loop of `clipLine` (`render-3d.ts` lines 139-184),
with the remaining iteration budget as explicit fuel.  Fuel `0` models
falling out of the `for` loop (the source then implicitly returns
`undefined`, i.e. no segment). -/
def clipLineAux : Nat → Vec3D α × Vec3D α → Option (Vec3D α × Vec3D α)
  | 0, _ => none
  | fuel + 1, (p1, p2) =>
    let out1 := getOutCode p1
    let out2 := getOutCode p2
    if out1 ||| out2 = 0 then some (p1, p2)
    else if out1 &&& out2 ≠ 0 then none
    else
      let outcode := if out1 ≠ 0 then out1 else out2
      let intersection := clipStep p1 p2 outcode
      if outcode = out1 then clipLineAux fuel (intersection, p2)
      else clipLineAux fuel (p1, intersection)

/-- Embeds `clipLine` from `render-3d.ts`: the loop runs `for (let i = 1; i < 10; i++)`,
i.e. at most 9 refinement iterations. -/
def clipLine (line : Vec3D α × Vec3D α) : Option (Vec3D α × Vec3D α) :=
  clipLineAux 9 line

/-- Membership in the closed clipping cube, the complement of the six
out-code half-spaces of `clipLine`. -/
def inCube (p : Vec3D α) : Prop :=
  -1 ≤ p.x ∧ p.x ≤ 1 ∧ -1 ≤ p.y ∧ p.y ≤ 1 ∧ -1 ≤ p.z ∧ p.z ≤ 1

instance (p : Vec3D α) : Decidable (inCube p) := by
  unfold inCube; infer_instance

/-- Embeds `DrawingContext3D` from `render-3d.ts`: owns the camera and the 2D
canvas.  The canvas is modelled by its half-relevant dimensions, the
current stroke style and the list of stroked screen-space segments. -/
structure DrawingContext3D (α : Type) where
  camera : Camera α
  width : α
  height : α
  strokeStyle : String
  paths : List ((α × α) × (α × α))
deriving DecidableEq

/-- Embeds `DrawingContext3D.clearScreen`: clears the drawing surface. -/
def DrawingContext3D.clearScreen (ctx : DrawingContext3D α) : DrawingContext3D α :=
  { ctx with paths := [] }

/-- Embeds `DrawingContext3D.setColor`: sets the stroke style. -/
def DrawingContext3D.setColor (ctx : DrawingContext3D α) (color : String) : DrawingContext3D α :=
  { ctx with strokeStyle := color }

/-- Embeds `DrawingContext3D.drawLine` from `render-3d.ts` lines 254-286:
relative points, view-volume normalization, clipping, then a stroke of
the surviving segment scaled by half the canvas size.  A null
normalization or clip result is a silent no-op. -/
def DrawingContext3D.drawLine (mcos msin : α → α) (ctx : DrawingContext3D α)
    (line : Vec3D α × Vec3D α) : DrawingContext3D α :=
  let beginRel := Camera.getRelativePoint mcos msin ctx.camera line.1
  let endRel := Camera.getRelativePoint mcos msin ctx.camera line.2
  match Camera.normalizeViewVolume ctx.camera (beginRel, endRel) with
  | none => ctx
  | some normalized =>
    match clipLine normalized with
    | none => ctx
    | some clipped =>
      { ctx with paths := ctx.paths ++
          [((clipped.1.x * ctx.width / 2, clipped.1.y * ctx.height / 2),
            (clipped.2.x * ctx.width / 2, clipped.2.y * ctx.height / 2))] }

/-- 3D turtle commands (`CommandType3D` in `turtle-3d.ts`), each with its
typed payload from the source's `args` array. -/
inductive Command3D (α : Type) where
  | forward (length : α)
  | rotate (angle : Rotation α)
  | penup
  | pendown
  | setcolor (color : String)
deriving DecidableEq

/-- Embeds `Turtle3D.getForwardUnit` from `turtle-3d.ts` lines 90-112: the fixed
canonical forward vector `(0,0,1)` pushed through the closed-form
rotation expansion at the turtle's current orientation. -/
def getForwardUnit (mcos msin : α → α) (rotation : Rotation α) : Vec3D α :=
  let point := vec3 (0 : α) 0 1
  let x := point.x
  let y := point.y
  let z := point.z
  let cx := mcos (Rotation.x rotation)
  let cy := mcos (Rotation.y rotation)
  let cz := mcos (Rotation.z rotation)
  let sx := msin (Rotation.x rotation)
  let sy := msin (Rotation.y rotation)
  let sz := msin (Rotation.z rotation)
  let dx := cy * (sz * y + cz * x) - sy * z
  let tmp1 := cy * z + sy * (sz * y + cz * x)
  let tmp2 := cz * y - sz * x
  let dy := sx * tmp1 + cx * tmp2
  let dz := cx * tmp1 - sx * tmp2
  vec3 dx dy dz

/-- State of `class Turtle3D` (`turtle-3d.ts`) together with the command
log of its base `class Turtle` (`turtle-common.ts`). -/
structure Turtle3D (α : Type) where
  position : Vec3D α
  rotation : Rotation α
  isPenDown : Bool
  drawingContext : DrawingContext3D α
  commands : List (Command3D α)
deriving DecidableEq

/-- Embeds `Turtle3D.forward`: advance along the forward unit, drawing when the
pen is down. -/
def Turtle3D.forward (mcos msin : α → α) (t : Turtle3D α) (length : α) : Turtle3D α :=
  let start := t.position
  let unit := getForwardUnit mcos msin t.rotation
  let endPoint := Vec3D.add start (Vec3D.mulScalar unit length)
  let ctx :=
    if t.isPenDown then DrawingContext3D.drawLine mcos msin t.drawingContext (start, endPoint)
    else t.drawingContext
  { t with position := endPoint, drawingContext := ctx }

/-- Embeds `Turtle3D.execute` from `turtle-3d.ts`: dispatch on the command kind. -/
def Turtle3D.execute (mcos msin : α → α) (t : Turtle3D α) (c : Command3D α) : Turtle3D α :=
  match c with
  | .forward length => Turtle3D.forward mcos msin t length
  | .rotate angle => { t with rotation := Rotation.add t.rotation angle }
  | .penup => { t with isPenDown := false }
  | .pendown => { t with isPenDown := true }
  | .setcolor color =>
      { t with drawingContext := DrawingContext3D.setColor t.drawingContext color }

/-- Embeds `Turtle.reset` (`turtle-common.ts`) specialised by `Turtle3D.resetImpl`:
pose back to the origin, pen down, screen cleared; the command log is
cleared only when `resetCommands` is set. -/
def Turtle3D.reset (resetCommands : Bool) (t : Turtle3D α) : Turtle3D α :=
  { t with
    position := Vec3D.zero
    rotation := Rotation.zero
    isPenDown := true
    drawingContext := DrawingContext3D.clearScreen t.drawingContext
    commands := if resetCommands then [] else t.commands }

/-- Embeds `Turtle.addCommand`: append the new command to the log, then execute it. -/
def Turtle3D.addCommand (mcos msin : α → α) (t : Turtle3D α) (c : Command3D α) : Turtle3D α :=
  Turtle3D.execute mcos msin { t with commands := t.commands ++ [c] } c

/-- Embeds `Turtle.replay`: reset without clearing the log, then re-execute the
full command log in order. -/
def Turtle3D.replay (mcos msin : α → α) (t : Turtle3D α) : Turtle3D α :=
  let r := Turtle3D.reset false t
  List.foldl (Turtle3D.execute mcos msin) r r.commands

/-- The turtle pose a claim's round-trip compares: position, orientation
and pen state. -/
structure Pose (α : Type) where
  position : Vec3D α
  rotation : Rotation α
  isPenDown : Bool
deriving DecidableEq

/-- Projection of a turtle state onto its pose. -/
def Turtle3D.pose (t : Turtle3D α) : Pose α := ⟨t.position, t.rotation, t.isPenDown⟩

/-- The pose transition of `Turtle3D.execute`: how one command changes
position, orientation and pen state. -/
def executePose (mcos msin : α → α) (p : Pose α) (c : Command3D α) : Pose α :=
  match c with
  | .forward length =>
      { p with position :=
          Vec3D.add p.position (Vec3D.mulScalar (getForwardUnit mcos msin p.rotation) length) }
  | .rotate angle => { p with rotation := Rotation.add p.rotation angle }
  | .penup => { p with isPenDown := false }
  | .pendown => { p with isPenDown := true }
  | .setcolor _ => p

/-- A live run: a freshly reset turtle fed a command sequence through
`addCommand` (as the UI handler in `turtle-3d-main.ts` does). -/
def liveRun (mcos msin : α → α) (t0 : Turtle3D α) (cs : List (Command3D α)) : Turtle3D α :=
  List.foldl (Turtle3D.addCommand mcos msin) (Turtle3D.reset true t0) cs

/-- Whether a command is one of Forward/Rotate/PenUp/PenDown. -/
def isBasic : Command3D α → Bool
  | .forward _ => true
  | .rotate _ => true
  | .penup => true
  | .pendown => true
  | .setcolor _ => false

/-- Embeds `deg2rad` from `render-3d.ts`, with the `Math.PI` constant explicit. -/
def deg2rad (pi deg : α) : α := deg / 180 * pi

/-- Embeds `parseCommandType3D` from `turtle-3d.ts` lines 15-35.  `parseFloat`
is the explicit parameter `pf`; the TypeScript `switch` has no default
case and implicitly returns `undefined` on an unknown keyword, modelled
by `none`. -/
def parseCommandType3D (pf : String → α) (pi : α) (kind : String) (args : List String) :
    Option (Command3D α) :=
  match kind with
  | "FORWARD" => some (Command3D.forward (pf (args.getD 0 "")))
  | "ROTATE" =>
      some (Command3D.rotate
        (rotMk (deg2rad pi (pf (args.getD 0 ""))) (deg2rad pi (pf (args.getD 1 ""))) 0))
  | "PENUP" => some Command3D.penup
  | "PENDOWN" => some Command3D.pendown
  | "SETCOLOR" => some (Command3D.setcolor (args.getD 0 ""))
  | _ => none

/-- JavaScript `String.prototype.split` with a single-character
separator, modelled structurally on the character list: every
occurrence of the separator starts a new (possibly empty) token. -/
def jsSplit (sep : Char) : List Char → List (List Char)
  | [] => [[]]
  | c :: cs =>
    let r := jsSplit sep cs
    if c = sep then [] :: r
    else (c :: r.headD []) :: r.tail

/-- JavaScript `String.prototype.trim`, modelled structurally: drop
whitespace from both ends. -/
def jsTrim (s : String) : String :=
  String.mk (((s.data.dropWhile Char.isWhitespace).reverse.dropWhile Char.isWhitespace).reverse)

/-- Embeds `Command.parse` from `turtle-common.ts`: trim, split on single
spaces, trim the parts, then hand keyword and argument list to the
per-dialect parse function. -/
def parseCommandLine3D (pf : String → α) (pi : α) (s : String) : Option (Command3D α) :=
  let parts := (jsSplit ' ' (jsTrim s).data).map (fun l => jsTrim (String.mk l))
  parseCommandType3D pf pi (parts.getD 0 "") (parts.drop 1)

/-- Modelled from the spec: the reference closed-form rotation expansion
of section 4.1, used only to compare `Camera.getRelativePoint` against
the spec's own formula. -/
def getRelativePointSpec (mcos msin : α → α) (c : Camera α) (point : Vec3D α) : Vec3D α :=
  let x := point.x - c.position.x
  let y := point.y - c.position.y
  let z := point.z - c.position.z
  let cx := mcos (Rotation.x c.rotation)
  let cy := mcos (Rotation.y c.rotation)
  let cz := mcos (Rotation.z c.rotation)
  let sx := msin (Rotation.x c.rotation)
  let sy := msin (Rotation.y c.rotation)
  let sz := msin (Rotation.z c.rotation)
  vec3 (cy * (sz * y + cz * x) - sy * z)
    (sx * (cy * z + sy * (sz * y + cz * x)) + cx * (cz * y - sz * x))
    (cx * (cy * z + sy * (sz * y + cz * x)) - sx * (cz * y - sz * x))

/-! ### Helper lemmas -/

lemma lor_zero_left {a b : Nat} (h : a ||| b = 0) : a = 0 := by
  apply Nat.eq_of_testBit_eq
  intro i
  have hh := congrArg (fun n => Nat.testBit n i) h
  simp only [Nat.testBit_or, Nat.zero_testBit] at hh
  simp only [Nat.zero_testBit]
  exact (Bool.or_eq_false_iff.mp hh).1

lemma lor_zero_right {a b : Nat} (h : a ||| b = 0) : b = 0 := by
  apply Nat.eq_of_testBit_eq
  intro i
  have hh := congrArg (fun n => Nat.testBit n i) h
  simp only [Nat.testBit_or, Nat.zero_testBit] at hh
  simp only [Nat.zero_testBit]
  exact (Bool.or_eq_false_iff.mp hh).2

lemma if_bit_zero {c : Prop} [Decidable c] {n : Nat} (hn : n ≠ 0)
    (h : (if c then n else 0) = 0) : ¬c := by
  intro hc
  rw [if_pos hc] at h
  exact hn h

lemma getOutCode_eq_zero {p : Vec3D α} : getOutCode p = 0 ↔ inCube p := by
  unfold getOutCode inCube
  constructor
  · intro h
    have h1 := lor_zero_left (lor_zero_left (lor_zero_left (lor_zero_left (lor_zero_left h))))
    have h2 := lor_zero_right (lor_zero_left (lor_zero_left (lor_zero_left (lor_zero_left h))))
    have h3 := lor_zero_right (lor_zero_left (lor_zero_left (lor_zero_left h)))
    have h4 := lor_zero_right (lor_zero_left (lor_zero_left h))
    have h5 := lor_zero_right (lor_zero_left h)
    have h6 := lor_zero_right h
    refine ⟨not_lt.mp (if_bit_zero ?_ h2), not_lt.mp (if_bit_zero ?_ h1),
      not_lt.mp (if_bit_zero ?_ h4), not_lt.mp (if_bit_zero ?_ h3),
      not_lt.mp (if_bit_zero ?_ h6), not_lt.mp (if_bit_zero ?_ h5)⟩ <;>
      simp [POSITIVE_X, NEGATIVE_X, POSITIVE_Y, NEGATIVE_Y, POSITIVE_Z, NEGATIVE_Z]
  · rintro ⟨h1, h2, h3, h4, h5, h6⟩
    rw [if_neg (not_lt.mpr h2), if_neg (not_lt.mpr h1), if_neg (not_lt.mpr h4),
      if_neg (not_lt.mpr h3), if_neg (not_lt.mpr h6), if_neg (not_lt.mpr h5)]
    rfl

lemma clipLineAux_succ (fuel : Nat) (p1 p2 : Vec3D α) :
    clipLineAux (fuel + 1) (p1, p2) =
      if getOutCode p1 ||| getOutCode p2 = 0 then some (p1, p2)
      else if getOutCode p1 &&& getOutCode p2 ≠ 0 then none
      else
        if (if getOutCode p1 ≠ 0 then getOutCode p1 else getOutCode p2) = getOutCode p1 then
          clipLineAux fuel
            (clipStep p1 p2 (if getOutCode p1 ≠ 0 then getOutCode p1 else getOutCode p2), p2)
        else
          clipLineAux fuel
            (p1, clipStep p1 p2 (if getOutCode p1 ≠ 0 then getOutCode p1 else getOutCode p2)) :=
  rfl

lemma convex_bound {a b t : α} (ha1 : -1 ≤ a) (ha2 : a ≤ 1) (hb1 : -1 ≤ b) (hb2 : b ≤ 1)
    (ht0 : 0 ≤ t) (ht1 : t ≤ 1) : -1 ≤ a * (1 - t) + b * t ∧ a * (1 - t) + b * t ≤ 1 := by
  constructor <;>
    nlinarith [mul_nonneg (by linarith : (0 : α) ≤ a + 1) (by linarith : (0 : α) ≤ 1 - t),
      mul_nonneg (by linarith : (0 : α) ≤ b + 1) ht0,
      mul_nonneg (by linarith : (0 : α) ≤ 1 - a) (by linarith : (0 : α) ≤ 1 - t),
      mul_nonneg (by linarith : (0 : α) ≤ 1 - b) ht0]

lemma clipLineAux_some {n : Nat} : ∀ {l q : Vec3D α × Vec3D α}, clipLineAux n l = some q →
    getOutCode q.1 = 0 ∧ getOutCode q.2 = 0 := by
  induction n with
  | zero =>
    intro l q h
    exact absurd h (by simp [clipLineAux])
  | succ n ih =>
    intro l q h
    obtain ⟨p1, p2⟩ := l
    rw [clipLineAux_succ] at h
    by_cases h0 : getOutCode p1 ||| getOutCode p2 = 0
    · rw [if_pos h0] at h
      injection h with h
      subst h
      exact ⟨lor_zero_left h0, lor_zero_right h0⟩
    · rw [if_neg h0] at h
      by_cases h1 : getOutCode p1 &&& getOutCode p2 ≠ 0
      · rw [if_pos h1] at h
        exact absurd h (by simp)
      · rw [if_neg h1] at h
        by_cases h2 :
            (if getOutCode p1 ≠ 0 then getOutCode p1 else getOutCode p2) = getOutCode p1
        · rw [if_pos h2] at h
          exact ih h
        · rw [if_neg h2] at h
          exact ih h

/-! ### Claim theorems -/

/-- C1: for every input segment in NDC, if `clipLine` returns a segment,
both returned endpoints — and hence every convex combination of them,
i.e. every point of the returned segment — lie within the closed cube
`[-1,1]^3`, exactly, in the exact arithmetic of the embedding. -/
theorem clipLine_output_in_cube (l q : Vec3D α × Vec3D α) (h : clipLine l = some q) :
    inCube q.1 ∧ inCube q.2 ∧
      ∀ t : α, 0 ≤ t → t ≤ 1 →
        inCube (Vec3D.add (Vec3D.mulScalar q.1 (1 - t)) (Vec3D.mulScalar q.2 t)) := by
  rw [clipLine] at h
  have hz := clipLineAux_some h
  have hq1 : inCube q.1 := getOutCode_eq_zero.mp hz.1
  have hq2 : inCube q.2 := getOutCode_eq_zero.mp hz.2
  refine ⟨hq1, hq2, ?_⟩
  intro t ht0 ht1
  obtain ⟨a1, a2, a3, a4, a5, a6⟩ := hq1
  obtain ⟨b1, b2, b3, b4, b5, b6⟩ := hq2
  have hx := convex_bound a1 a2 b1 b2 ht0 ht1
  have hy := convex_bound a3 a4 b3 b4 ht0 ht1
  have hzz := convex_bound a5 a6 b5 b6 ht0 ht1
  dsimp only [inCube, Vec3D.add, Vec3D.mulScalar, vec3]
  exact ⟨hx.1, hx.2, hy.1, hy.2, hzz.1, hzz.2⟩

/-- C1 witness: a concrete segment accepted by `clipLine`, with the cube
membership instantiated from the theorem. -/
theorem clipLine_output_in_cube_witness :
    clipLine ((vec3 (0 : ℚ) 0 0), (vec3 1 0 0)) = some (vec3 0 0 0, vec3 1 0 0) ∧
      inCube (vec3 (0 : ℚ) 0 0) ∧ inCube (vec3 (1 : ℚ) 0 0) := by
  have h : clipLine ((vec3 (0 : ℚ) 0 0), (vec3 1 0 0)) = some (vec3 0 0 0, vec3 1 0 0) := by
    show clipLineAux (8 + 1) _ = _
    rw [clipLineAux_succ]
    norm_num [getOutCode, vec3, POSITIVE_X, NEGATIVE_X, POSITIVE_Y, NEGATIVE_Y,
      POSITIVE_Z, NEGATIVE_Z]
  have hc := clipLine_output_in_cube _ _ h
  exact ⟨h, hc.1, hc.2.1⟩

/-- C3: `normalizeViewVolume` returns null iff both endpoints have
camera-space z strictly less than `nearDistance`; in every other case it
returns a pair of normalized points. -/
theorem normalizeViewVolume_none_iff (c : Camera α) (p1 p2 : Vec3D α) :
    c.normalizeViewVolume (p1, p2) = none ↔
      p1.z < c.nearDistance ∧ p2.z < c.nearDistance := by
  simp only [Camera.normalizeViewVolume, Camera.nearClip]
  split_ifs with h h2 h3 <;> simp_all

/-- C5: a segment whose endpoints both lie in the closed cube (both
out-codes zero) is returned by `clipLine` unchanged. -/
theorem clipLine_inside_identity (p1 p2 : Vec3D α) (h1 : inCube p1) (h2 : inCube p2) :
    clipLine (p1, p2) = some (p1, p2) := by
  have e1 := getOutCode_eq_zero.mpr h1
  have e2 := getOutCode_eq_zero.mpr h2
  show clipLineAux (8 + 1) _ = _
  rw [clipLineAux_succ, e1, e2]
  simp

/-- C5 witness: the identity property at a concrete boundary-touching
segment inside the cube. -/
theorem clipLine_inside_identity_witness :
    inCube (vec3 (-1 : ℚ) 0 (1/2)) ∧ inCube (vec3 (1 : ℚ) 1 0) ∧
      clipLine ((vec3 (-1 : ℚ) 0 (1/2)), (vec3 1 1 0)) =
        some (vec3 (-1) 0 (1/2), vec3 1 1 0) := by
  have h1 : inCube (vec3 (-1 : ℚ) 0 (1/2)) := by norm_num [inCube, vec3]
  have h2 : inCube (vec3 (1 : ℚ) 1 0) := by norm_num [inCube, vec3]
  exact ⟨h1, h2, clipLine_inside_identity _ _ h1 h2⟩

/-- C4: when exactly one endpoint is nearer than the near plane,
`normalizeViewVolume` replaces that endpoint, before projecting, with
the interpolated point whose z is exactly `nearDistance`, where
`alpha = (nearDistance - p1.z)/(p2.z - p1.z)` interpolates the x and y
coordinates; `alpha` lies in `[0,1]` and the replacement point satisfies
the segment's own interpolation equation in z, so it lies on the
original segment. -/
theorem nearClip_single_endpoint (c : Camera α) (p1 p2 : Vec3D α)
    (h : p1.z < c.nearDistance ↔ ¬(p2.z < c.nearDistance)) :
    0 ≤ (c.nearDistance - p1.z) / (p2.z - p1.z) ∧
    (c.nearDistance - p1.z) / (p2.z - p1.z) ≤ 1 ∧
    (let alpha := (c.nearDistance - p1.z) / (p2.z - p1.z)
     let intersection :=
       vec3 (p1.x + alpha * (p2.x - p1.x)) (p1.y + alpha * (p2.y - p1.y)) c.nearDistance
     intersection.z = c.nearDistance ∧
     intersection.z = p1.z + alpha * (p2.z - p1.z) ∧
     c.nearClip (p1, p2) =
       some (if p1.z < c.nearDistance then (intersection, p2) else (p1, intersection)) ∧
     c.normalizeViewVolume (p1, p2) = (c.nearClip (p1, p2)).map
       (fun q => (c.normalizeViewVolumePoint q.1, c.normalizeViewVolumePoint q.2))) := by
  by_cases h1 : p1.z < c.nearDistance
  · have h2 : ¬p2.z < c.nearDistance := h.mp h1
    have hd : 0 < p2.z - p1.z := by
      have := not_lt.mp h2
      linarith
    have hne : p2.z - p1.z ≠ 0 := ne_of_gt hd
    refine ⟨div_nonneg (by linarith) (le_of_lt hd), (div_le_one hd).mpr (by
      have := not_lt.mp h2
      linarith), rfl, ?_, ?_, rfl⟩
    · show c.nearDistance = p1.z + (c.nearDistance - p1.z) / (p2.z - p1.z) * (p2.z - p1.z)
      rw [div_mul_cancel₀ _ hne]
      ring
    · simp only [Camera.nearClip]
      rw [if_neg (by tauto), if_pos (Or.inl h1), if_pos h1, if_pos h1]
  · have h2 : p2.z < c.nearDistance := not_not.mp (fun hn => h1 (h.mpr hn))
    have hle : c.nearDistance ≤ p1.z := not_lt.mp h1
    have hd : 0 < p1.z - p2.z := by linarith
    have hne : p2.z - p1.z ≠ 0 := by
      intro hz
      have : p1.z = p2.z := by linarith [sub_eq_zero.mp hz]
      linarith
    have hrw : (c.nearDistance - p1.z) / (p2.z - p1.z) =
        (p1.z - c.nearDistance) / (p1.z - p2.z) := by
      rw [show c.nearDistance - p1.z = -(p1.z - c.nearDistance) by ring,
        show p2.z - p1.z = -(p1.z - p2.z) by ring, neg_div_neg_eq]
    refine ⟨by
        rw [hrw]
        exact div_nonneg (by linarith) (le_of_lt hd), by
        rw [hrw]
        exact (div_le_one hd).mpr (by linarith), rfl, ?_, ?_, rfl⟩
    · show c.nearDistance = p1.z + (c.nearDistance - p1.z) / (p2.z - p1.z) * (p2.z - p1.z)
      rw [div_mul_cancel₀ _ hne]
      ring
    · simp only [Camera.nearClip]
      rw [if_neg (by tauto), if_pos (Or.inr h2), if_neg h1, if_neg h1]

/-- C4 witness: a camera with near plane 1 and a segment from z=0 to
z=2, where only the first endpoint is too near; interpolation parameter
bounds instantiated from the theorem. -/
theorem nearClip_single_endpoint_witness :
    ((vec3 (0 : ℚ) 0 0).z < (1 : ℚ) ↔ ¬((vec3 (0 : ℚ) 0 2).z < (1 : ℚ))) ∧
      (0 : ℚ) ≤ (1 - 0) / (2 - 0) ∧ ((1 : ℚ) - 0) / (2 - 0) ≤ 1 := by
  have h := nearClip_single_endpoint (α := ℚ) ⟨Vec3D.zero, Rotation.zero, 1, 3⟩
    (vec3 0 0 0) (vec3 0 0 2) (by decide)
  exact ⟨by decide, h.1, h.2.1⟩

/-- C2: the clipping loop is budgeted to exactly 9 refinement
iterations; an exhausted budget produces no segment, and a null clip
result makes `drawLine` a no-op that issues no draw command. -/
theorem clipLine_budget_giveup :
    (∀ l : Vec3D α × Vec3D α, clipLine l = clipLineAux 9 l) ∧
    (∀ l : Vec3D α × Vec3D α, clipLineAux 0 l = none) ∧
    (∀ (mcos msin : α → α) (ctx : DrawingContext3D α) (line nl : Vec3D α × Vec3D α),
      Camera.normalizeViewVolume ctx.camera
        (Camera.getRelativePoint mcos msin ctx.camera line.1,
         Camera.getRelativePoint mcos msin ctx.camera line.2) = some nl →
      clipLine nl = none →
      DrawingContext3D.drawLine mcos msin ctx line = ctx) := by
  refine ⟨fun _ => rfl, fun _ => rfl, ?_⟩
  intro mcos msin ctx line nl h1 h2
  simp only [DrawingContext3D.drawLine, h1, h2]

/-- C2 witness: a segment that normalizes to the right of the cube with
a shared out-code, on which `clipLine` yields null and `drawLine`
leaves the drawing context untouched. -/
theorem clipLine_budget_giveup_witness :
    Camera.normalizeViewVolume (⟨Vec3D.zero, Rotation.zero, 1, 3⟩ : Camera ℚ)
        (Camera.getRelativePoint (fun _ => 1) (fun _ => 0)
          ⟨Vec3D.zero, Rotation.zero, 1, 3⟩ (vec3 10 0 2),
         Camera.getRelativePoint (fun _ => 1) (fun _ => 0)
          ⟨Vec3D.zero, Rotation.zero, 1, 3⟩ (vec3 11 0 (5/2))) =
        some (vec3 5 0 0, vec3 (22/5) 0 (1/4)) ∧
      clipLine ((vec3 (5 : ℚ) 0 0), (vec3 (22/5) 0 (1/4))) = none ∧
      DrawingContext3D.drawLine (fun _ => (1 : ℚ)) (fun _ => 0)
          ⟨⟨Vec3D.zero, Rotation.zero, 1, 3⟩, 100, 100, "black", []⟩
          (vec3 10 0 2, vec3 11 0 (5/2)) =
        ⟨⟨Vec3D.zero, Rotation.zero, 1, 3⟩, 100, 100, "black", []⟩ := by
  have h1 : Camera.normalizeViewVolume (⟨Vec3D.zero, Rotation.zero, 1, 3⟩ : Camera ℚ)
      (Camera.getRelativePoint (fun _ => 1) (fun _ => 0)
        ⟨Vec3D.zero, Rotation.zero, 1, 3⟩ (vec3 10 0 2),
       Camera.getRelativePoint (fun _ => 1) (fun _ => 0)
        ⟨Vec3D.zero, Rotation.zero, 1, 3⟩ (vec3 11 0 (5/2))) =
      some (vec3 5 0 0, vec3 (22/5) 0 (1/4)) := by
    norm_num [Camera.normalizeViewVolume, Camera.nearClip, Camera.normalizeViewVolumePoint,
      Camera.projection, Camera.getRelativePoint, vec3, vec2, Vec3D.zero, Rotation.zero,
      Rotation.x, Rotation.y, Rotation.z]
  have h2 : clipLine ((vec3 (5 : ℚ) 0 0), (vec3 (22/5) 0 (1/4))) = none := by
    show clipLineAux (8 + 1) _ = _
    rw [clipLineAux_succ]
    norm_num [getOutCode, vec3, POSITIVE_X, NEGATIVE_X, POSITIVE_Y, NEGATIVE_Y,
      POSITIVE_Z, NEGATIVE_Z]
  exact ⟨h1, h2, clipLine_budget_giveup.2.2 _ _ _ (vec3 10 0 2, vec3 11 0 (5/2)) _ h1 h2⟩

/-- C6: `Camera.getRelativePoint` agrees with the spec's reference
closed-form rotation expansion everywhere, and the `Rotation` accessors
follow the convention x=pitch, y=yaw, z=roll. -/
theorem getRelativePoint_matches_spec (mcos msin : α → α) (c : Camera α) (p : Vec3D α) :
    Camera.getRelativePoint mcos msin c p = getRelativePointSpec mcos msin c p ∧
    Rotation.x c.rotation = c.rotation.pitch ∧
    Rotation.y c.rotation = c.rotation.yaw ∧
    Rotation.z c.rotation = c.rotation.roll :=
  ⟨rfl, rfl, rfl, rfl⟩

/-- C9: the 3D turtle's forward-unit derivation coincides with the
camera's inverse rotation of the canonical forward vector `(0,0,1)` at
position zero, for every orientation and every cosine/sine model. -/
theorem getForwardUnit_eq_getRelativePoint (mcos msin : α → α) (n f : α) (r : Rotation α) :
    getForwardUnit mcos msin r =
      Camera.getRelativePoint mcos msin ⟨Vec3D.zero, r, n, f⟩ (vec3 0 0 1) := by
  simp only [getForwardUnit, Camera.getRelativePoint, Vec3D.zero, vec3, Vec3D.mk.injEq]
  refine ⟨by ring, by ring, by ring⟩

/-- C10: `drawLine` never modifies the camera: position, rotation and
both clip distances are unchanged on every input. -/
theorem drawLine_preserves_camera (mcos msin : α → α) (ctx : DrawingContext3D α)
    (line : Vec3D α × Vec3D α) :
    (DrawingContext3D.drawLine mcos msin ctx line).camera.position = ctx.camera.position ∧
    (DrawingContext3D.drawLine mcos msin ctx line).camera.rotation = ctx.camera.rotation ∧
    (DrawingContext3D.drawLine mcos msin ctx line).camera.nearDistance =
      ctx.camera.nearDistance ∧
    (DrawingContext3D.drawLine mcos msin ctx line).camera.farDistance =
      ctx.camera.farDistance := by
  have h : (DrawingContext3D.drawLine mcos msin ctx line).camera = ctx.camera := by
    simp only [DrawingContext3D.drawLine]
    split
    · rfl
    · split <;> rfl
  refine ⟨?_, ?_, ?_, ?_⟩ <;> rw [h]

lemma pose_execute (mcos msin : α → α) (t : Turtle3D α) (c : Command3D α) :
    Turtle3D.pose (Turtle3D.execute mcos msin t c) = executePose mcos msin (Turtle3D.pose t) c := by
  cases c <;> rfl

lemma execute_commands (mcos msin : α → α) (t : Turtle3D α) (c : Command3D α) :
    (Turtle3D.execute mcos msin t c).commands = t.commands := by
  cases c <;> rfl

lemma pose_addCommand (mcos msin : α → α) (t : Turtle3D α) (c : Command3D α) :
    Turtle3D.pose (Turtle3D.addCommand mcos msin t c) =
      executePose mcos msin (Turtle3D.pose t) c := by
  cases c <;> rfl

lemma addCommand_commands (mcos msin : α → α) (t : Turtle3D α) (c : Command3D α) :
    (Turtle3D.addCommand mcos msin t c).commands = t.commands ++ [c] := by
  unfold Turtle3D.addCommand
  rw [execute_commands]

lemma pose_foldl_execute (mcos msin : α → α) (cs : List (Command3D α)) :
    ∀ t : Turtle3D α,
      Turtle3D.pose (List.foldl (Turtle3D.execute mcos msin) t cs) =
        List.foldl (executePose mcos msin) (Turtle3D.pose t) cs := by
  induction cs with
  | nil => intro t; rfl
  | cons c cs ih =>
    intro t
    simp only [List.foldl_cons]
    rw [ih, pose_execute]

lemma pose_foldl_addCommand (mcos msin : α → α) (cs : List (Command3D α)) :
    ∀ t : Turtle3D α,
      Turtle3D.pose (List.foldl (Turtle3D.addCommand mcos msin) t cs) =
        List.foldl (executePose mcos msin) (Turtle3D.pose t) cs := by
  induction cs with
  | nil => intro t; rfl
  | cons c cs ih =>
    intro t
    simp only [List.foldl_cons]
    rw [ih, pose_addCommand]

lemma foldl_addCommand_commands (mcos msin : α → α) (cs : List (Command3D α)) :
    ∀ t : Turtle3D α,
      (List.foldl (Turtle3D.addCommand mcos msin) t cs).commands = t.commands ++ cs := by
  induction cs with
  | nil => intro t; simp
  | cons c cs ih =>
    intro t
    simp only [List.foldl_cons]
    rw [ih, addCommand_commands, List.append_assoc]
    rfl

/-- C7: replaying a turtle whose command log was built by a sequence of
Forward/Rotate/PenUp/PenDown `addCommand` calls on a freshly reset
turtle leaves the turtle in exactly the final pose (position,
orientation, pen state) of the live execution. -/
theorem replay_roundtrip_pose (mcos msin : α → α) (t0 : Turtle3D α) (cs : List (Command3D α))
    (h : ∀ c ∈ cs, isBasic c = true) :
    Turtle3D.pose (Turtle3D.replay mcos msin (liveRun mcos msin t0 cs)) =
      Turtle3D.pose (liveRun mcos msin t0 cs) := by
  simp only [Turtle3D.replay]
  have hcmd : (Turtle3D.reset false (liveRun mcos msin t0 cs)).commands = cs := by
    show (liveRun mcos msin t0 cs).commands = cs
    unfold liveRun
    rw [foldl_addCommand_commands]
    simp [Turtle3D.reset]
  rw [hcmd, pose_foldl_execute]
  conv_rhs => unfold liveRun
  rw [pose_foldl_addCommand]
  rfl

/-- C7 witness: a concrete Forward/Rotate/PenUp sequence over the
rationals, with constant cosine/sine models. -/
theorem replay_roundtrip_pose_witness :
    (∀ c ∈ [Command3D.forward (2 : ℚ), Command3D.rotate ⟨1, 0, 0⟩, Command3D.penup],
      isBasic c = true) ∧
    Turtle3D.pose (Turtle3D.replay (fun _ => (1 : ℚ)) (fun _ => 0)
        (liveRun (fun _ => (1 : ℚ)) (fun _ => 0)
          ⟨Vec3D.zero, Rotation.zero, true, ⟨⟨Vec3D.zero, Rotation.zero, 1, 3⟩, 100, 100,
            "black", []⟩, []⟩
          [Command3D.forward 2, Command3D.rotate ⟨1, 0, 0⟩, Command3D.penup])) =
      Turtle3D.pose (liveRun (fun _ => (1 : ℚ)) (fun _ => 0)
        ⟨Vec3D.zero, Rotation.zero, true, ⟨⟨Vec3D.zero, Rotation.zero, 1, 3⟩, 100, 100,
          "black", []⟩, []⟩
        [Command3D.forward 2, Command3D.rotate ⟨1, 0, 0⟩, Command3D.penup]) :=
  ⟨by decide, replay_roundtrip_pose _ _ _ _ (by decide)⟩

/-- C8: parsing the line `FOO 1 2`, whose keyword is unknown, yields no
explicit parse-error result: the source's `switch` falls through and the
parse produces the TypeScript `undefined`, modelled as `none`, for every
number-parsing model and every value of pi. -/
theorem parse_unknown_keyword (pf : String → α) (pi : α) :
    parseCommandLine3D pf pi "FOO 1 2" = none := rfl

end Graphics
